import Mathlib

/-!
Verification development for the Papyrus language-tooling repository:
the green/red syntax-tree core (DarkId.Papyrus.LanguageService.Syntax.InternalSyntax,
file FunctionHeaderSyntax.cs), the VS Code debug-adapter descriptor factory
(PapyrusDebugAdapterDescriptorFactory.ts) and the install-path resolver
(common/PathResolver.ts), shallowly embedded in Lean.
-/

namespace Papyrus

/-- Node kinds referenced by the embedded code. The source references
SyntaxKind.FunctionHeader; the token kinds are the ones the spec's token
model needs (identifier, number, whitespace trivia runs, lexical-error runs,
missing tokens, keywords and delimiters). -/
inductive SyntaxKind where
  | FunctionHeader
  | Script
  | IdentifierToken
  | NumberToken
  | WhitespaceToken
  | ErrorToken
  | MissingToken
  | FunctionKeyword
  | EventKeyword
  | OpenParenToken
  | CloseParenToken
  deriving DecidableEq, Repr

/-- A diagnostic annotation carried by malformed or missing tokens. -/
inductive Diagnostic where
  | lexicalError
  | missingProduction
  deriving DecidableEq, Repr

/-- A terminal token: kind, the exact source substring it covers (code text
plus attached trivia), and an optional diagnostic. Width is the length of
the full text span. -/
structure SyntaxToken where
  kind : SyntaxKind
  fullText : List Char
  diagnostic : Option Diagnostic
  deriving DecidableEq, Repr

/-- Immutable green node: a token leaf, or a composite holding a kind, an
ordered child sequence, and the cached total width stored at construction. -/
inductive GreenNode where
  | token (tok : SyntaxToken)
  | node (kind : SyntaxKind) (children : List GreenNode) (cachedWidth : Nat)

/-- The width a green node reports: a token reports the length of its full
text; a composite reports its cached width. -/
def GreenNode.width : GreenNode → Nat
  | .token tok => tok.fullText.length
  | .node _ _ w => w

/-- Sum of the reported widths of a child sequence. -/
def childWidthSum (children : List GreenNode) : Nat :=
  (children.map GreenNode.width).sum

/-- Modelled from the spec: the green-node base-class constructor (not under
src/; only the concrete subclass FunctionHeaderSyntax is) computes the width
once at construction and caches it, per §4.1: "Width is computed once and
cached; re-deriving it must always equal the sum-of-children formula". -/
def mkNode (kind : SyntaxKind) (children : List GreenNode) : GreenNode :=
  .node kind children (childWidthSum children)

/-- The kind a green node reports. -/
def GreenNode.kind : GreenNode → SyntaxKind
  | .token tok => tok.kind
  | .node k _ _ => k

/-- The child sequence of a green node (tokens are leaves). -/
def GreenNode.children : GreenNode → List GreenNode
  | .token _ => []
  | .node _ cs _ => cs

/-- Green nodes reachable by construction: tokens, and composites built with
the width-caching constructor from constructed children. Structural sharing
(reusing a constructed node in several trees) stays inside this set. -/
inductive Built : GreenNode → Prop where
  | token (tok : SyntaxToken) : Built (.token tok)
  | node (kind : SyntaxKind) (children : List GreenNode)
      (h : ∀ c ∈ children, Built c) : Built (mkNode kind children)

/-- The slot types of the header's non-token children. Their classes
(TypeIdentifierSyntax, ExpressionSyntax, FunctionParameterSyntax) are not
under src/; per the spec they are green nodes, so the slots are modelled at
the green-node supertype. -/
abbrev TypeIdentifierSyntax := GreenNode

abbrev ExpressionSyntax := GreenNode

abbrev FunctionParameterSyntax := GreenNode

/-- View of a token as a green leaf. -/
def SyntaxToken.toGreen (tok : SyntaxToken) : GreenNode :=
  .token tok

/-- The concrete green node for a function/event header production, with the
named strongly-typed slots of FunctionHeaderSyntax.cs. -/
structure FunctionHeaderSyntax where
  TypeIdentifier : TypeIdentifierSyntax
  FunctionOrEventKeyword : SyntaxToken
  Identifier : ExpressionSyntax
  OpenParen : SyntaxToken
  Parameters : List FunctionParameterSyntax
  CloseParen : SyntaxToken

/-- The C# constructor body: each slot is assigned exactly the corresponding
argument, and construction is total. -/
def FunctionHeaderSyntax.create (typeIdentifier : TypeIdentifierSyntax)
    (functionorEventKeyword : SyntaxToken) (identifier : ExpressionSyntax)
    (openParen : SyntaxToken) (parameters : List FunctionParameterSyntax)
    (closeParen : SyntaxToken) : FunctionHeaderSyntax :=
  { TypeIdentifier := typeIdentifier
    FunctionOrEventKeyword := functionorEventKeyword
    Identifier := identifier
    OpenParen := openParen
    Parameters := parameters
    CloseParen := closeParen }

/-- The overridden Kind property: a FunctionHeaderSyntax always reports
SyntaxKind.FunctionHeader. -/
def FunctionHeaderSyntax.Kind (_ : FunctionHeaderSyntax) : SyntaxKind :=
  SyntaxKind.FunctionHeader

/-- The ChildrenInternal iterator: yields the return-type slot, the keyword,
the name expression, the open delimiter, each parameter in order, and the
close delimiter — exactly in that order, with no entry skipped. -/
def FunctionHeaderSyntax.ChildrenInternal (self : FunctionHeaderSyntax) :
    List GreenNode :=
  [self.TypeIdentifier, self.FunctionOrEventKeyword.toGreen, self.Identifier,
    self.OpenParen.toGreen]
  ++ self.Parameters
  ++ [self.CloseParen.toGreen]

/-- The header viewed as a green node, built by the width-caching base
constructor over its ChildrenInternal sequence. -/
def FunctionHeaderSyntax.toGreen (self : FunctionHeaderSyntax) : GreenNode :=
  mkNode SyntaxKind.FunctionHeader self.ChildrenInternal

/-- A red node: a positioned, parent-aware wrapper around a green node. -/
inductive SyntaxNode where
  | mk (green : GreenNode) (position : Int) (parent : Option SyntaxNode)

/-- The exception the C# CreateRed override raises. -/
inductive CsException where
  | notImplementedException
  deriving DecidableEq, Repr

/-- The CreateRed override of FunctionHeaderSyntax.cs: its entire body is
"throw new NotImplementedException()". -/
def FunctionHeaderSyntax.CreateRed (_ : FunctionHeaderSyntax)
    (_parent : Option SyntaxNode) (_position : Int) :
    Except CsException SyntaxNode :=
  .error .notImplementedException

/-- The effecting visitor interface: the handler for the FunctionHeader kind
acts on a world state (the C# form returns void; its side effect is the
state transformation). -/
structure IGreenNodeVisitor (σ : Type) where
  Visit : FunctionHeaderSyntax → σ → σ

/-- The generic-result visitor interface: the handler for the FunctionHeader
kind returns a caller-chosen result type. -/
structure IGreenNodeVisitorOf (T : Type) where
  Visit : FunctionHeaderSyntax → T

/-- The effecting Accept override: the node offers itself to the visitor. -/
def FunctionHeaderSyntax.Accept (self : FunctionHeaderSyntax)
    (visitor : IGreenNodeVisitor σ) : σ → σ :=
  visitor.Visit self

/-- The generic-result Accept override: the node offers itself and returns
what the visitor's handler returns. -/
def FunctionHeaderSyntax.AcceptOf (self : FunctionHeaderSyntax)
    (visitor : IGreenNodeVisitorOf T) : T :=
  visitor.Visit self

/-- Instrumentation wrapper: runs the wrapped visitor's FunctionHeader
handler and logs the kind of every handler invocation, so that the number of
invocations a dispatch performs is observable. -/
def instrument (visitor : IGreenNodeVisitor σ) :
    IGreenNodeVisitor (σ × List SyntaxKind) :=
  ⟨fun node p => (visitor.Visit node p.1, p.2 ++ [SyntaxKind.FunctionHeader])⟩

/-- Character classes for the modelled lexer. -/
inductive CharClass where
  | letter
  | digit
  | space
  | other
  deriving DecidableEq, Repr

/-- Class of a character: letters, digits, whitespace, anything else. -/
def classify (c : Char) : CharClass :=
  if c.isAlpha then .letter
  else if c.isDigit then .digit
  else if c = ' ' || c = '\t' || c = '\n' || c = '\r' then .space
  else .other

/-- Token kind produced for a run of a given character class; invalid runs
become error tokens rather than being dropped. -/
def tokenKindFor : CharClass → SyntaxKind
  | .letter => .IdentifierToken
  | .digit => .NumberToken
  | .space => .WhitespaceToken
  | .other => .ErrorToken

/-- Diagnostic attached to a run: invalid character runs carry a lexical
error, everything else none. -/
def diagnosticFor : CharClass → Option Diagnostic
  | .other => some .lexicalError
  | _ => none

/-- Modelled from the spec: the lexer (an upstream producer, not under src/)
splits the input into maximal same-class runs; each run becomes one token
whose full text is exactly that run, and an invalid character sequence
becomes an error-kind token with width equal to the invalid run, never
aborting construction (§7, §8). -/
def lex : List Char → List SyntaxToken
  | [] => []
  | c :: cs =>
    { kind := tokenKindFor (classify c)
      fullText := c :: cs.takeWhile (fun d => classify d == classify c)
      diagnostic := diagnosticFor (classify c) }
      :: lex (cs.dropWhile (fun d => classify d == classify c))
termination_by l => l.length
decreasing_by
  simp only [List.length_cons]
  have := (List.dropWhile_sublist (l := cs)
    (fun d => classify d == classify c)).length_le
  omega

/-- Modelled from the spec: green-node assembly (the tree builder is not
under src/) wraps the token stream, in lexical order, as the leaves of a
green root built with the width-caching constructor (§2, §4.1). -/
def parse (s : List Char) : GreenNode :=
  mkNode SyntaxKind.Script ((lex s).map SyntaxToken.toGreen)

/-- The leaf tokens of a green tree, in lexical order. -/
def GreenNode.leafTokens : GreenNode → List SyntaxToken
  | .token tok => [tok]
  | .node _ cs _ => cs.attach.flatMap (fun c => c.1.leafTokens)
decreasing_by
  have := List.sizeOf_lt_of_mem c.2
  simp only [GreenNode.node.sizeOf_spec]
  omega

/-- Concatenation of the full texts of a token sequence. -/
def concatFullText (toks : List SyntaxToken) : List Char :=
  (toks.map SyntaxToken.fullText).flatten

end Papyrus

namespace Papyrus

/-- The games the extension knows, per the switches in PathResolver.ts. -/
inductive PapyrusGame where
  | fallout4
  | skyrim
  | skyrimSpecialEdition
  deriving DecidableEq, Repr

/-- Debug-support install states, per the switch in ensureReadyFlow; the
enumeration itself lives in DebugSupportInstallService (not under src/), and
the installed state models the switch's fall-through default. -/
inductive DebugSupportInstallState where
  | incorrectVersion
  | notInstalled
  | gameDisabled
  | gameMissing
  | installed
  deriving DecidableEq, Repr

/-- Observable effects relevant to the descriptor factory: querying the
debug-support install state and reading the extension configuration. -/
inductive Action where
  | getInstallState
  | configLookup
  deriving DecidableEq, Repr

/-- Creation Kit information consumed by the factory. -/
structure CreationKitInfo where
  resolvedInstallPath : Option String
  sScriptSourceFolder : Option String
  sAdditionalImports : Option String
  deriving DecidableEq, Repr

/-- The debug session configuration the factory reads and may update. -/
structure DebugSessionConfiguration where
  game : PapyrusGame
  port : Option Nat
  projectPath : Option String
  noop : Bool
  deriving DecidableEq, Repr

/-- The argument record handed to the debug tool (IDebugToolArguments). -/
structure IDebugToolArguments where
  port : Option Nat
  projectPath : Option String
  defaultScriptSourceFolder : Option String
  defaultAdditionalImports : Option String
  creationKitInstallPath : String
  relativeIniPaths : List String
  clientProcessId : Nat
  remotesInstallPath : String
  deriving DecidableEq, Repr

/-- Environment of the descriptor factory: results of the awaited external
calls (install-state service, configuration, dialogs, process state, path
resolver) that the factory reads. -/
structure DebugEnv where
  installState : DebugSupportInstallState
  ignoreDebuggerVersion : Bool
  updateChoice : Option String
  installChoice : Option String
  gameIsRunning : Bool
  gameRunningChoice : Option String
  creationKitIniFiles : List String
  creationKitInfo : CreationKitInfo
  vscodePid : Nat
  pyroRemPath : String
  debugToolPath : PapyrusGame → String
  toCommandLineArgs : IDebugToolArguments → List String

/-- A debug adapter descriptor: command plus command-line arguments. -/
structure DebugAdapterExecutable where
  command : String
  args : List String
  deriving DecidableEq, Repr

/-- Errors the factory raises. -/
inductive DebugError where
  | unsupportedGame (game : PapyrusGame)
  | creationKitInstallPathNotConfigured (game : PapyrusGame)
  deriving DecidableEq, Repr

/-- The module-level no-op adapter executable of DebugAdapterDescriptorFactory. -/
def noopExecutable : DebugAdapterExecutable :=
  ⟨"node", ["-e", "\"\""]⟩

/-- Default debugger port per game. -/
def getDefaultPortForGame (game : PapyrusGame) : Nat :=
  if game = PapyrusGame.fallout4 then 2077 else 43201

/-- The final is-the-game-running check at the end of ensureReadyFlow: when
the game is not running, a warning dialog is shown and anything but
Continue declines. -/
def gameRunningCheck (env : DebugEnv) (trace : List Action) :
    Bool × List Action :=
  if env.gameIsRunning then (true, trace)
  else if env.gameRunningChoice = some "Continue" then (true, trace)
  else (false, trace)

/-- ensureReadyFlow: first awaits the install state; on incorrectVersion it
reads the configuration (ignoreDebuggerVersion) and then consults the
update dialog (Update declines after launching the install command, Cancel
or dismissal declines, Remind Me Later proceeds); notInstalled, gameDisabled
and gameMissing always decline; otherwise the running check runs. Returns
the decision plus the trace of install-state/configuration reads. -/
def ensureReadyFlow (env : DebugEnv) (_game : PapyrusGame) :
    Bool × List Action :=
  let tr0 := [Action.getInstallState]
  match env.installState with
  | .incorrectVersion =>
    let tr1 := tr0 ++ [Action.configLookup]
    if env.ignoreDebuggerVersion then gameRunningCheck env tr1
    else if env.updateChoice = some "Update" then (false, tr1)
    else if env.updateChoice = some "Cancel" ∨ env.updateChoice = none then
      (false, tr1)
    else gameRunningCheck env tr1
  | .notInstalled => (false, tr0)
  | .gameDisabled => (false, tr0)
  | .gameMissing => (false, tr0)
  | .installed => gameRunningCheck env tr0

/-- createDebugAdapterDescriptor: rejects unsupported games up front; when
the readiness flow declines, marks the session as no-op and returns the
no-op executable; otherwise reads the configuration and Creation Kit info,
rejects a missing Creation Kit install path, and builds the executable for
the resolved debug tool path and arguments. -/
def createDebugAdapterDescriptor (env : DebugEnv)
    (session : DebugSessionConfiguration) :
    Except DebugError (DebugAdapterExecutable × DebugSessionConfiguration)
      × List Action :=
  let game := session.game
  if game ≠ PapyrusGame.fallout4 ∧ game ≠ PapyrusGame.skyrimSpecialEdition then
    (.error (.unsupportedGame game), [])
  else
    let r := ensureReadyFlow env game
    if r.1 = false then
      (.ok (noopExecutable, { session with noop := true }), r.2)
    else
      let tr := r.2 ++ [Action.configLookup]
      match env.creationKitInfo.resolvedInstallPath with
      | none => (.error (.creationKitInstallPathNotConfigured game), tr)
      | some ckPath =>
        let toolArguments : IDebugToolArguments :=
          { port := some (match session.port with
              | some p => if p = 0 then getDefaultPortForGame game else p
              | none => getDefaultPortForGame game)
            projectPath := session.projectPath
            creationKitInstallPath := ckPath
            relativeIniPaths := env.creationKitIniFiles
            defaultScriptSourceFolder := env.creationKitInfo.sScriptSourceFolder
            defaultAdditionalImports := env.creationKitInfo.sAdditionalImports
            clientProcessId := env.vscodePid
            remotesInstallPath := env.pyroRemPath }
        (.ok (⟨env.debugToolPath game, env.toCommandLineArgs toolArguments⟩,
          session), tr)

/-- The error a rejected registry lookup carries. -/
inductive RegistryError where
  | lookupFailed
  deriving DecidableEq, Repr

/-- A registry item as returned by winreg. -/
structure RegistryItem where
  value : String
  deriving DecidableEq, Repr

/-- Observable effect of resolveInstallPath: the registry lookup. -/
inductive ResolveAction where
  | registryGet
  deriving DecidableEq, Repr

/-- Environment of resolveInstallPath: the filesystem existence check, the
outcome of the registry lookup of the installed-path value, whether this is
a development environment, and the extension-relative path resolver. -/
structure ResolveEnv where
  pathExists : String → Bool
  registryInstalledPath : Except RegistryError RegistryItem
  inDevelopmentEnvironment : Bool
  asAbsolutePath : String → String

/-- resolveInstallPath of PathResolver.ts: returns the configured install
path when it exists on disk; otherwise consults the registry (errors
swallowed) and returns its installed-path value when that exists on disk;
otherwise, in a development environment and for any game but classic
skyrim, returns the bundled development compilers path; otherwise null.
Returns the result plus the trace of registry lookups. -/
def resolveInstallPath (env : ResolveEnv) (game : PapyrusGame)
    (installPath : String) : Option String × List ResolveAction :=
  if env.pathExists installPath then (some installPath, [])
  else
    let fallback : Option String :=
      if env.inDevelopmentEnvironment ∧ game ≠ PapyrusGame.skyrim then
        some (env.asAbsolutePath "../../dependencies/compilers")
      else none
    match env.registryInstalledPath with
    | .ok item =>
      if env.pathExists item.value then
        (some item.value, [ResolveAction.registryGet])
      else (fallback, [ResolveAction.registryGet])
    | .error _ => (fallback, [ResolveAction.registryGet])

end Papyrus

namespace Papyrus

theorem leafTokens_node (k : SyntaxKind) (cs : List GreenNode) (w : Nat) :
    (GreenNode.node k cs w).leafTokens
      = (cs.map GreenNode.leafTokens).flatten := by
  rw [GreenNode.leafTokens]
  simp [List.flatMap_def, List.attach_map_coe]

theorem leafTokens_token_leaves (ts : List SyntaxToken) (k : SyntaxKind)
    (w : Nat) :
    (GreenNode.node k (ts.map SyntaxToken.toGreen) w).leafTokens = ts := by
  rw [leafTokens_node]
  induction ts with
  | nil => rfl
  | cons t ts ih => simp_all [SyntaxToken.toGreen, GreenNode.leafTokens]

theorem concatFullText_lex (s : List Char) : concatFullText (lex s) = s := by
  induction s using lex.induct with
  | case1 => rw [lex]; rfl
  | case2 c cs ih =>
    rw [lex]
    simp only [concatFullText, List.map_cons, List.flatten_cons] at *
    rw [ih]
    simp [List.takeWhile_append_dropWhile]

theorem built_node_spec {k : SyntaxKind} {cs : List GreenNode} {w : Nat}
    (hg : Built (GreenNode.node k cs w)) :
    w = childWidthSum cs ∧ ∀ c ∈ cs, Built c := by
  cases hg with
  | node kind children hch => exact ⟨rfl, hch⟩

/-- Claim C1 (code side): the CreateRed override of FunctionHeaderSyntax
raises NotImplementedException for every input — the error branch is the
whole body, so the claimed success is impossible for every parent and
position. -/
theorem createRed_throws (fh : FunctionHeaderSyntax)
    (parent : Option SyntaxNode) (position : Int) :
    fh.CreateRed parent position
      = Except.error CsException.notImplementedException :=
  rfl

/-- Claim C2: enumerating a function header's children yields exactly the
return-type slot, the keyword token, the name expression, the open
delimiter, the parameters in their given order, and the close delimiter —
5 + n entries in that order, with the optional return-type slot always
yielded first, never skipped. -/
theorem childrenInternal_spec (fh : FunctionHeaderSyntax) :
    fh.ChildrenInternal =
      [fh.TypeIdentifier, fh.FunctionOrEventKeyword.toGreen, fh.Identifier,
        fh.OpenParen.toGreen] ++ fh.Parameters ++ [fh.CloseParen.toGreen]
    ∧ fh.ChildrenInternal.length = 5 + fh.Parameters.length
    ∧ fh.ChildrenInternal.head? = some fh.TypeIdentifier
    ∧ (fh.ChildrenInternal.drop 4).take fh.Parameters.length
        = fh.Parameters := by
  refine ⟨rfl, ?_, rfl, ?_⟩
  · simp [FunctionHeaderSyntax.ChildrenInternal]
    omega
  · simp only [FunctionHeaderSyntax.ChildrenInternal, List.cons_append,
      List.nil_append, List.drop_succ_cons, List.drop_zero]
    exact List.take_left fh.Parameters [fh.CloseParen.toGreen]

/-- Claim C3: for any source text, valid or invalid, concatenating the full
text of every leaf token of the resulting green tree in lexical order
reproduces the original text exactly. -/
theorem parse_roundTrip (s : List Char) :
    concatFullText (parse s).leafTokens = s := by
  simp only [parse, mkNode]
  rw [leafTokens_token_leaves]
  exact concatFullText_lex s

/-- Claim C4: for every constructed green composite node the cached width
equals the sum of its children's widths; construction from constructed
children stays constructed, shared subtrees of a constructed node are
constructed, and a function header's green node satisfies the equation
over its ChildrenInternal sequence. -/
theorem width_invariant :
    (∀ (k : SyntaxKind) (cs : List GreenNode) (w : Nat),
      Built (GreenNode.node k cs w) →
      (GreenNode.node k cs w).width = childWidthSum cs)
    ∧ (∀ (k : SyntaxKind) (cs : List GreenNode),
        (∀ c ∈ cs, Built c) → Built (mkNode k cs))
    ∧ (∀ (k : SyntaxKind) (cs : List GreenNode) (w : Nat),
        Built (GreenNode.node k cs w) → ∀ c ∈ cs, Built c)
    ∧ (∀ fh : FunctionHeaderSyntax,
        fh.toGreen.width = childWidthSum fh.ChildrenInternal) :=
  ⟨fun _ _ _ h => (built_node_spec h).1,
   fun k cs h => Built.node k cs h,
   fun _ _ _ h => (built_node_spec h).2,
   fun _ => rfl⟩

/-- A sample identifier token of width two. -/
def sampleToken : SyntaxToken :=
  ⟨SyntaxKind.IdentifierToken, ['a', 'b'], none⟩

/-- Witness for C4: a concrete constructed node with one token child — the
cached width 2 equals the sum of the children's widths. -/
theorem width_invariant_witness :
    (GreenNode.node SyntaxKind.Script [GreenNode.token sampleToken] 2).width
      = childWidthSum [GreenNode.token sampleToken] :=
  width_invariant.1 SyntaxKind.Script [GreenNode.token sampleToken] 2
    (Built.node SyntaxKind.Script [GreenNode.token sampleToken]
      (fun c hc => by
        rw [List.mem_singleton] at hc
        subst hc
        exact Built.token sampleToken))

/-- Claim C5: both dispatch forms resolve to the visitor's FunctionHeader
handler: the effecting Accept invokes exactly that handler exactly once
(observable in the instrumentation log), and the generic-result Accept
returns exactly what the handler returns. -/
theorem accept_dispatch (σ T : Type) (fh : FunctionHeaderSyntax)
    (visitor : IGreenNodeVisitor σ) (visitorOf : IGreenNodeVisitorOf T)
    (s : σ) (log : List SyntaxKind) :
    fh.Accept (instrument visitor) (s, log)
      = (visitor.Visit fh s, log ++ [SyntaxKind.FunctionHeader])
    ∧ fh.AcceptOf visitorOf = visitorOf.Visit fh
    ∧ fh.Accept visitor s = visitor.Visit fh s :=
  ⟨rfl, rfl, rfl⟩

/-- Claim C6: the FunctionHeaderSyntax constructor is total — it succeeds
for every combination of slot arguments, and each slot holds exactly the
argument it was given. -/
theorem create_total_slots (typeIdentifier : TypeIdentifierSyntax)
    (functionorEventKeyword : SyntaxToken) (identifier : ExpressionSyntax)
    (openParen : SyntaxToken) (parameters : List FunctionParameterSyntax)
    (closeParen : SyntaxToken) :
    (FunctionHeaderSyntax.create typeIdentifier functionorEventKeyword
        identifier openParen parameters closeParen).TypeIdentifier
        = typeIdentifier
    ∧ (FunctionHeaderSyntax.create typeIdentifier functionorEventKeyword
        identifier openParen parameters closeParen).FunctionOrEventKeyword
        = functionorEventKeyword
    ∧ (FunctionHeaderSyntax.create typeIdentifier functionorEventKeyword
        identifier openParen parameters closeParen).Identifier = identifier
    ∧ (FunctionHeaderSyntax.create typeIdentifier functionorEventKeyword
        identifier openParen parameters closeParen).OpenParen = openParen
    ∧ (FunctionHeaderSyntax.create typeIdentifier functionorEventKeyword
        identifier openParen parameters closeParen).Parameters = parameters
    ∧ (FunctionHeaderSyntax.create typeIdentifier functionorEventKeyword
        identifier openParen parameters closeParen).CloseParen = closeParen :=
  ⟨rfl, rfl, rfl, rfl, rfl, rfl⟩

/-- Claim C7: every function header reports exactly the FunctionHeader kind
— the kind any instance reports is FunctionHeader and nothing else, every
constructed instance reports it, and the green projection carries it. -/
theorem kind_invariant :
    (∀ (fh : FunctionHeaderSyntax) (k : SyntaxKind),
      fh.Kind = k ↔ k = SyntaxKind.FunctionHeader)
    ∧ (∀ (typeIdentifier : TypeIdentifierSyntax)
        (functionorEventKeyword : SyntaxToken) (identifier : ExpressionSyntax)
        (openParen : SyntaxToken) (parameters : List FunctionParameterSyntax)
        (closeParen : SyntaxToken),
        (FunctionHeaderSyntax.create typeIdentifier functionorEventKeyword
          identifier openParen parameters closeParen).Kind
          = SyntaxKind.FunctionHeader)
    ∧ (∀ fh : FunctionHeaderSyntax,
        fh.toGreen.kind = SyntaxKind.FunctionHeader) := by
  refine ⟨?_, fun _ _ _ _ _ _ => rfl, fun _ => rfl⟩
  intro fh k
  simp [FunctionHeaderSyntax.Kind, eq_comm]

/-- Claim C8: for every session whose configured game is neither fallout4
nor skyrimSpecialEdition, the factory raises the unsupported-game error
with an empty effect trace — so no install-state check and no configuration
lookup happens before (or after) the rejection. -/
theorem createDebugAdapterDescriptor_unsupported (env : DebugEnv)
    (session : DebugSessionConfiguration)
    (h1 : session.game ≠ PapyrusGame.fallout4)
    (h2 : session.game ≠ PapyrusGame.skyrimSpecialEdition) :
    createDebugAdapterDescriptor env session
      = (.error (.unsupportedGame session.game), []) := by
  rw [createDebugAdapterDescriptor]
  simp [h1, h2]

/-- A concrete environment in which debug support is not installed. -/
def sampleEnv : DebugEnv :=
  { installState := .notInstalled
    ignoreDebuggerVersion := false
    updateChoice := none
    installChoice := none
    gameIsRunning := false
    gameRunningChoice := none
    creationKitIniFiles := []
    creationKitInfo := ⟨none, none, none⟩
    vscodePid := 0
    pyroRemPath := ""
    debugToolPath := fun _ => ""
    toCommandLineArgs := fun _ => [] }

/-- A session configured for classic skyrim, which the debugger rejects. -/
def skyrimSession : DebugSessionConfiguration :=
  ⟨PapyrusGame.skyrim, none, none, false⟩

/-- Witness for C8: a classic-skyrim session is rejected with an empty
effect trace. -/
theorem createDebugAdapterDescriptor_unsupported_witness :
    createDebugAdapterDescriptor sampleEnv skyrimSession
      = (.error (.unsupportedGame PapyrusGame.skyrim), []) :=
  createDebugAdapterDescriptor_unsupported sampleEnv skyrimSession
    (by decide) (by decide)

/-- Claim C9: resolveInstallPath returns the configured path when it exists
on disk without touching the registry; otherwise it returns the registry's
installed-path value when that exists on disk; otherwise the bundled
development compilers path in a development environment for any game but
classic skyrim; otherwise none — registry errors are swallowed, never
propagated. -/
theorem resolveInstallPath_spec (env : ResolveEnv) (game : PapyrusGame)
    (installPath : String) :
    (env.pathExists installPath = true →
      resolveInstallPath env game installPath = (some installPath, []))
    ∧ (env.pathExists installPath = false →
        ∀ item, env.registryInstalledPath = .ok item →
        env.pathExists item.value = true →
        resolveInstallPath env game installPath
          = (some item.value, [ResolveAction.registryGet]))
    ∧ (env.pathExists installPath = false →
        (∀ item, env.registryInstalledPath = .ok item →
          env.pathExists item.value = false) →
        env.inDevelopmentEnvironment = true → game ≠ PapyrusGame.skyrim →
        resolveInstallPath env game installPath
          = (some (env.asAbsolutePath "../../dependencies/compilers"),
              [ResolveAction.registryGet]))
    ∧ (env.pathExists installPath = false →
        (∀ item, env.registryInstalledPath = .ok item →
          env.pathExists item.value = false) →
        (env.inDevelopmentEnvironment = false ∨ game = PapyrusGame.skyrim) →
        resolveInstallPath env game installPath
          = (none, [ResolveAction.registryGet])) := by
  refine ⟨?_, ?_, ?_, ?_⟩
  · intro h
    rw [resolveInstallPath]
    simp [h]
  · intro h item hreg hval
    rw [resolveInstallPath]
    simp [h, hreg, hval]
  · intro h hreg hdev hgame
    rw [resolveInstallPath]
    cases hr : env.registryInstalledPath with
    | ok item => simp [h, hr, hreg item hr, hdev, hgame]
    | error e => simp [h, hr, hdev, hgame]
  · intro h hreg hnodev
    rw [resolveInstallPath]
    cases hr : env.registryInstalledPath with
    | ok item =>
      rcases hnodev with hd | hg
      · simp [h, hr, hreg item hr, hd]
      · simp [h, hr, hreg item hr, hg]
    | error e =>
      rcases hnodev with hd | hg
      · simp [h, hr, hd]
      · simp [h, hr, hg]

/-- A concrete environment in which every path exists on disk. -/
def allExistsEnv : ResolveEnv :=
  ⟨fun _ => true, .error .lookupFailed, false, fun p => p⟩

/-- Witness for C9: with the configured path present on disk, it is
returned directly and the registry-lookup trace is empty. -/
theorem resolveInstallPath_spec_witness :
    resolveInstallPath allExistsEnv PapyrusGame.fallout4 "install"
      = (some "install", []) :=
  (resolveInstallPath_spec allExistsEnv PapyrusGame.fallout4 "install").1 rfl

/-- Claim C10: for a supported game, whenever the readiness flow declines,
the factory does not raise: it returns the no-op executable together with
the session marked noop, carrying over the flow's effect trace. -/
theorem createDebugAdapterDescriptor_noop (env : DebugEnv)
    (session : DebugSessionConfiguration)
    (hg : session.game = PapyrusGame.fallout4
      ∨ session.game = PapyrusGame.skyrimSpecialEdition)
    (hr : (ensureReadyFlow env session.game).1 = false) :
    createDebugAdapterDescriptor env session
      = (.ok (noopExecutable, { session with noop := true }),
          (ensureReadyFlow env session.game).2) := by
  rw [createDebugAdapterDescriptor]
  have hcond : ¬(session.game ≠ PapyrusGame.fallout4
      ∧ session.game ≠ PapyrusGame.skyrimSpecialEdition) := by
    rcases hg with h | h <;> simp [h]
  rw [if_neg hcond]
  simp [hr]

/-- A session configured for fallout4. -/
def fallout4Session : DebugSessionConfiguration :=
  ⟨PapyrusGame.fallout4, none, none, false⟩

/-- Witness for C10: with debug support not installed the flow declines,
and the factory returns the no-op executable with the session marked noop
after exactly the install-state check. -/
theorem createDebugAdapterDescriptor_noop_witness :
    createDebugAdapterDescriptor sampleEnv fallout4Session
      = (.ok (noopExecutable, { fallout4Session with noop := true }),
          [Action.getInstallState]) :=
  createDebugAdapterDescriptor_noop sampleEnv fallout4Session
    (Or.inl rfl) rfl

end Papyrus
